import Mathlib

/-!
Verification of the particle morphing engine of the crypto_fellas repository.

The development shallowly embeds the algorithmic core of
`src/components/canvas/ParticleSystem.tsx`,
`src/components/canvas/ParticleMorphSystem.tsx`,
`src/utils/shapeGenerators.ts` and `src/enum/ParticlesEnum.ts`.

Conventions of the embedding:
* JavaScript numbers are modelled as exact rationals; decimal literals of the
  source become the corresponding rationals.
* `Float32Array` position buffers (three floats per particle) are modelled as
  `List Vec3`, one entry per particle; flat arrays of scalars are `List Rat`.
* Transcendental library primitives that the code calls
  (`Math.sin`, the simplex-noise samplers, `Math.random`, `Vector3.normalize`,
  `Vector3.applyAxisAngle`, `Vector3.distanceTo`) are passed in as an oracle
  record of functions; randomness streams are keyed by the particle index at
  which the code draws them.
* React `useState` / `useRef` cells become fields of explicit state records,
  and callbacks become state-passing functions.
-/

/-- A 3D vector with rational coordinates, modelling `THREE.Vector3`. -/
structure Vec3 where
  x : ℚ
  y : ℚ
  z : ℚ
deriving DecidableEq, Repr

namespace Vec3

/-- Componentwise addition, as in `Vector3.add`. -/
def add (a b : Vec3) : Vec3 := ⟨a.x + b.x, a.y + b.y, a.z + b.z⟩

/-- Componentwise subtraction, as in `Vector3.subVectors`. -/
def sub (a b : Vec3) : Vec3 := ⟨a.x - b.x, a.y - b.y, a.z - b.z⟩

/-- Scalar multiplication, as in `Vector3.multiplyScalar`. -/
def smul (a : Vec3) (s : ℚ) : Vec3 := ⟨a.x * s, a.y * s, a.z * s⟩

instance : Add Vec3 := ⟨add⟩

instance : Sub Vec3 := ⟨sub⟩

instance : Zero Vec3 := ⟨⟨0, 0, 0⟩⟩

/-- Linear interpolation `a + (b - a) * t`, as in `Vector3.lerpVectors`
and `Vector3.lerp`. -/
def lerp (a b : Vec3) (t : ℚ) : Vec3 :=
  ⟨a.x + (b.x - a.x) * t, a.y + (b.y - a.y) * t, a.z + (b.z - a.z) * t⟩

/-- Fused multiply-add `a + v * s`, as in `Vector3.addScaledVector`. -/
def addScaled (a v : Vec3) (s : ℚ) : Vec3 :=
  ⟨a.x + v.x * s, a.y + v.y * s, a.z + v.z * s⟩

theorem add_def (a b : Vec3) : a + b = ⟨a.x + b.x, a.y + b.y, a.z + b.z⟩ := rfl

theorem sub_def (a b : Vec3) : a - b = ⟨a.x - b.x, a.y - b.y, a.z - b.z⟩ := rfl

theorem zero_def : (0 : Vec3) = ⟨0, 0, 0⟩ := rfl

end Vec3

/-!
## Bounding-box folds

`normalizeParticlePositions` seeds its per-axis `min`/`max` folds with
`Infinity` / `-Infinity` and then folds `Math.min` / `Math.max` over every
coordinate.  Over the rationals we express the identical computation as a
fold over the tail of the (nonempty) coordinate list seeded with its head,
which yields the same value.
-/

/-- Left fold of `min` over a list, seeded with `a`. -/
def foldMin (a : ℚ) (l : List ℚ) : ℚ := l.foldl min a

/-- Left fold of `max` over a list, seeded with `a`. -/
def foldMax (a : ℚ) (l : List ℚ) : ℚ := l.foldl max a

/-- A map that commutes with `min` moves through a `min`-fold. -/
theorem foldMin_map (f : ℚ → ℚ) (hf : ∀ x y : ℚ, f (min x y) = min (f x) (f y))
    (a : ℚ) (l : List ℚ) : foldMin (f a) (l.map f) = f (foldMin a l) := by
  induction l generalizing a with
  | nil => rfl
  | cons b t ih =>
    simp only [foldMin, List.map_cons, List.foldl_cons] at *
    rw [← hf, ih]

/-- A map that commutes with `max` moves through a `max`-fold. -/
theorem foldMax_map (f : ℚ → ℚ) (hf : ∀ x y : ℚ, f (max x y) = max (f x) (f y))
    (a : ℚ) (l : List ℚ) : foldMax (f a) (l.map f) = f (foldMax a l) := by
  induction l generalizing a with
  | nil => rfl
  | cons b t ih =>
    simp only [foldMax, List.map_cons, List.foldl_cons] at *
    rw [← hf, ih]

/-- The affine map `x ↦ (x - c) * s` with `0 ≤ s` commutes with `min`. -/
theorem affine_min (c s : ℚ) (hs : 0 ≤ s) (x y : ℚ) :
    (min x y - c) * s = min ((x - c) * s) ((y - c) * s) := by
  rcases le_total x y with h | h
  · rw [min_eq_left h, min_eq_left]
    exact mul_le_mul_of_nonneg_right (by linarith) hs
  · rw [min_eq_right h, min_eq_right]
    exact mul_le_mul_of_nonneg_right (by linarith) hs

/-- The affine map `x ↦ (x - c) * s` with `0 ≤ s` commutes with `max`. -/
theorem affine_max (c s : ℚ) (hs : 0 ≤ s) (x y : ℚ) :
    (max x y - c) * s = max ((x - c) * s) ((y - c) * s) := by
  rcases le_total x y with h | h
  · rw [max_eq_right h, max_eq_right]
    exact mul_le_mul_of_nonneg_right (by linarith) hs
  · rw [max_eq_left h, max_eq_left]
    exact mul_le_mul_of_nonneg_right (by linarith) hs

theorem foldMin_le_seed (a : ℚ) (l : List ℚ) : foldMin a l ≤ a := by
  induction l generalizing a with
  | nil => exact le_rfl
  | cons b t ih =>
    simp only [foldMin, List.foldl_cons] at *
    exact le_trans (ih (min a b)) (min_le_left a b)

theorem seed_le_foldMax (a : ℚ) (l : List ℚ) : a ≤ foldMax a l := by
  induction l generalizing a with
  | nil => exact le_rfl
  | cons b t ih =>
    simp only [foldMax, List.foldl_cons] at *
    exact le_trans (le_max_left a b) (ih (max a b))

/-!
## Normalizer

Embedding of `normalizeParticlePositions` from
`src/components/canvas/ParticleSystem.tsx` (lines 635-690).
-/

/-- Minimum x-coordinate of a point cloud (0 for the empty cloud, which the
source never queries).  Matches the `minX` fold of
`normalizeParticlePositions`. -/
def bboxMinX : List Vec3 → ℚ
  | [] => 0
  | p :: ps => foldMin p.x (ps.map Vec3.x)

/-- Maximum x-coordinate of a point cloud. -/
def bboxMaxX : List Vec3 → ℚ
  | [] => 0
  | p :: ps => foldMax p.x (ps.map Vec3.x)

/-- Minimum y-coordinate of a point cloud. -/
def bboxMinY : List Vec3 → ℚ
  | [] => 0
  | p :: ps => foldMin p.y (ps.map Vec3.y)

/-- Maximum y-coordinate of a point cloud. -/
def bboxMaxY : List Vec3 → ℚ
  | [] => 0
  | p :: ps => foldMax p.y (ps.map Vec3.y)

/-- Minimum z-coordinate of a point cloud. -/
def bboxMinZ : List Vec3 → ℚ
  | [] => 0
  | p :: ps => foldMin p.z (ps.map Vec3.z)

/-- Maximum z-coordinate of a point cloud. -/
def bboxMaxZ : List Vec3 → ℚ
  | [] => 0
  | p :: ps => foldMax p.z (ps.map Vec3.z)

/-- Bounding-box centre along x, `(minX + maxX) / 2` in the source. -/
def centerX (P : List Vec3) : ℚ := (bboxMinX P + bboxMaxX P) / 2

/-- Bounding-box centre along y. -/
def centerY (P : List Vec3) : ℚ := (bboxMinY P + bboxMaxY P) / 2

/-- Bounding-box centre along z. -/
def centerZ (P : List Vec3) : ℚ := (bboxMinZ P + bboxMaxZ P) / 2

/-- Largest axis-aligned bounding-box dimension,
`Math.max(sizeX, sizeY, sizeZ)` in the source. -/
def maxDimension (P : List Vec3) : ℚ :=
  max (bboxMaxX P - bboxMinX P) (max (bboxMaxY P - bboxMinY P) (bboxMaxZ P - bboxMinZ P))

/-- The scale factor applied by the normalizer:
`maxDimension > 0 ? targetSize / maxDimension : 1`. -/
def normScale (P : List Vec3) (targetSize : ℚ) : ℚ :=
  if 0 < maxDimension P then targetSize / maxDimension P else 1

/-- Embedding of `normalizeParticlePositions(positions, targetSize)`:
center the cloud at the bounding-box midpoint and scale its largest
bounding-box dimension to `targetSize` (scale 1 when the box is degenerate).
The source returns the input unchanged when `positions.length === 0`. -/
def normalizeParticlePositions (positions : List Vec3) (targetSize : ℚ) : List Vec3 :=
  match positions with
  | [] => []
  | p :: ps =>
    let s := normScale (p :: ps) targetSize
    (p :: ps).map (fun q =>
      ⟨(q.x - centerX (p :: ps)) * s,
       (q.y - centerY (p :: ps)) * s,
       (q.z - centerZ (p :: ps)) * s⟩)

/-- Unfolding of the normalizer on a nonempty cloud. -/
theorem normalizeParticlePositions_cons (p : Vec3) (ps : List Vec3) (S : ℚ) :
    normalizeParticlePositions (p :: ps) S
      = (p :: ps).map (fun q =>
          ⟨(q.x - centerX (p :: ps)) * normScale (p :: ps) S,
           (q.y - centerY (p :: ps)) * normScale (p :: ps) S,
           (q.z - centerZ (p :: ps)) * normScale (p :: ps) S⟩) := rfl

/-- The normalizer scale is nonnegative whenever the target size is. -/
theorem normScale_nonneg (P : List Vec3) (S : ℚ) (hS : 0 ≤ S) :
    0 ≤ normScale P S := by
  unfold normScale
  split
  · exact div_nonneg hS (le_of_lt (by assumption))
  · exact zero_le_one

/-- Minimum x of a cloud mapped through the centring-and-scaling function. -/
theorem bboxMinX_map_affine (cX cY cZ s : ℚ) (hs : 0 ≤ s) (p : Vec3) (ps : List Vec3) :
    bboxMinX ((p :: ps).map (fun q => (⟨(q.x - cX) * s, (q.y - cY) * s, (q.z - cZ) * s⟩ : Vec3)))
      = (bboxMinX (p :: ps) - cX) * s := by
  simp only [List.map_cons, bboxMinX, List.map_map]
  rw [show ps.map (Vec3.x ∘ fun q =>
        (⟨(q.x - cX) * s, (q.y - cY) * s, (q.z - cZ) * s⟩ : Vec3))
      = (ps.map Vec3.x).map (fun x => (x - cX) * s) from by rw [List.map_map]; rfl]
  exact foldMin_map (fun t => (t - cX) * s) (affine_min cX s hs) p.x (ps.map Vec3.x)

/-- Maximum x of a cloud mapped through the centring-and-scaling function. -/
theorem bboxMaxX_map_affine (cX cY cZ s : ℚ) (hs : 0 ≤ s) (p : Vec3) (ps : List Vec3) :
    bboxMaxX ((p :: ps).map (fun q => (⟨(q.x - cX) * s, (q.y - cY) * s, (q.z - cZ) * s⟩ : Vec3)))
      = (bboxMaxX (p :: ps) - cX) * s := by
  simp only [List.map_cons, bboxMaxX, List.map_map]
  rw [show ps.map (Vec3.x ∘ fun q =>
        (⟨(q.x - cX) * s, (q.y - cY) * s, (q.z - cZ) * s⟩ : Vec3))
      = (ps.map Vec3.x).map (fun x => (x - cX) * s) from by rw [List.map_map]; rfl]
  exact foldMax_map (fun t => (t - cX) * s) (affine_max cX s hs) p.x (ps.map Vec3.x)

/-- Minimum y of a cloud mapped through the centring-and-scaling function. -/
theorem bboxMinY_map_affine (cX cY cZ s : ℚ) (hs : 0 ≤ s) (p : Vec3) (ps : List Vec3) :
    bboxMinY ((p :: ps).map (fun q => (⟨(q.x - cX) * s, (q.y - cY) * s, (q.z - cZ) * s⟩ : Vec3)))
      = (bboxMinY (p :: ps) - cY) * s := by
  simp only [List.map_cons, bboxMinY, List.map_map]
  rw [show ps.map (Vec3.y ∘ fun q =>
        (⟨(q.x - cX) * s, (q.y - cY) * s, (q.z - cZ) * s⟩ : Vec3))
      = (ps.map Vec3.y).map (fun y => (y - cY) * s) from by rw [List.map_map]; rfl]
  exact foldMin_map (fun t => (t - cY) * s) (affine_min cY s hs) p.y (ps.map Vec3.y)

/-- Maximum y of a cloud mapped through the centring-and-scaling function. -/
theorem bboxMaxY_map_affine (cX cY cZ s : ℚ) (hs : 0 ≤ s) (p : Vec3) (ps : List Vec3) :
    bboxMaxY ((p :: ps).map (fun q => (⟨(q.x - cX) * s, (q.y - cY) * s, (q.z - cZ) * s⟩ : Vec3)))
      = (bboxMaxY (p :: ps) - cY) * s := by
  simp only [List.map_cons, bboxMaxY, List.map_map]
  rw [show ps.map (Vec3.y ∘ fun q =>
        (⟨(q.x - cX) * s, (q.y - cY) * s, (q.z - cZ) * s⟩ : Vec3))
      = (ps.map Vec3.y).map (fun y => (y - cY) * s) from by rw [List.map_map]; rfl]
  exact foldMax_map (fun t => (t - cY) * s) (affine_max cY s hs) p.y (ps.map Vec3.y)

/-- Minimum z of a cloud mapped through the centring-and-scaling function. -/
theorem bboxMinZ_map_affine (cX cY cZ s : ℚ) (hs : 0 ≤ s) (p : Vec3) (ps : List Vec3) :
    bboxMinZ ((p :: ps).map (fun q => (⟨(q.x - cX) * s, (q.y - cY) * s, (q.z - cZ) * s⟩ : Vec3)))
      = (bboxMinZ (p :: ps) - cZ) * s := by
  simp only [List.map_cons, bboxMinZ, List.map_map]
  rw [show ps.map (Vec3.z ∘ fun q =>
        (⟨(q.x - cX) * s, (q.y - cY) * s, (q.z - cZ) * s⟩ : Vec3))
      = (ps.map Vec3.z).map (fun z => (z - cZ) * s) from by rw [List.map_map]; rfl]
  exact foldMin_map (fun t => (t - cZ) * s) (affine_min cZ s hs) p.z (ps.map Vec3.z)

/-- Maximum z of a cloud mapped through the centring-and-scaling function. -/
theorem bboxMaxZ_map_affine (cX cY cZ s : ℚ) (hs : 0 ≤ s) (p : Vec3) (ps : List Vec3) :
    bboxMaxZ ((p :: ps).map (fun q => (⟨(q.x - cX) * s, (q.y - cY) * s, (q.z - cZ) * s⟩ : Vec3)))
      = (bboxMaxZ (p :: ps) - cZ) * s := by
  simp only [List.map_cons, bboxMaxZ, List.map_map]
  rw [show ps.map (Vec3.z ∘ fun q =>
        (⟨(q.x - cX) * s, (q.y - cY) * s, (q.z - cZ) * s⟩ : Vec3))
      = (ps.map Vec3.z).map (fun z => (z - cZ) * s) from by rw [List.map_map]; rfl]
  exact foldMax_map (fun t => (t - cZ) * s) (affine_max cZ s hs) p.z (ps.map Vec3.z)

/-- Scaling both arguments of `max` by a nonnegative factor. -/
theorem max_mul_nonneg (a b s : ℚ) (hs : 0 ≤ s) :
    max (a * s) (b * s) = max a b * s := by
  rcases le_total a b with h | h
  · rw [max_eq_right h, max_eq_right (mul_le_mul_of_nonneg_right h hs)]
  · rw [max_eq_left h, max_eq_left (mul_le_mul_of_nonneg_right h hs)]

/-- The largest bounding-box dimension of a nonempty cloud is nonnegative. -/
theorem maxDimension_nonneg (p : Vec3) (ps : List Vec3) :
    0 ≤ maxDimension (p :: ps) := by
  have hx : bboxMinX (p :: ps) ≤ bboxMaxX (p :: ps) :=
    le_trans (foldMin_le_seed p.x (ps.map Vec3.x)) (seed_le_foldMax p.x (ps.map Vec3.x))
  exact le_trans (by linarith) (le_max_left _ _)

/-- Minimum x of a normalized nonempty cloud. -/
theorem normalize_bboxMinX (p : Vec3) (ps : List Vec3) (S : ℚ) (hS : 0 ≤ S) :
    bboxMinX (normalizeParticlePositions (p :: ps) S)
      = (bboxMinX (p :: ps) - centerX (p :: ps)) * normScale (p :: ps) S := by
  rw [normalizeParticlePositions_cons]
  exact bboxMinX_map_affine _ _ _ _ (normScale_nonneg _ _ hS) p ps

/-- Maximum x of a normalized nonempty cloud. -/
theorem normalize_bboxMaxX (p : Vec3) (ps : List Vec3) (S : ℚ) (hS : 0 ≤ S) :
    bboxMaxX (normalizeParticlePositions (p :: ps) S)
      = (bboxMaxX (p :: ps) - centerX (p :: ps)) * normScale (p :: ps) S := by
  rw [normalizeParticlePositions_cons]
  exact bboxMaxX_map_affine _ _ _ _ (normScale_nonneg _ _ hS) p ps

/-- Minimum y of a normalized nonempty cloud. -/
theorem normalize_bboxMinY (p : Vec3) (ps : List Vec3) (S : ℚ) (hS : 0 ≤ S) :
    bboxMinY (normalizeParticlePositions (p :: ps) S)
      = (bboxMinY (p :: ps) - centerY (p :: ps)) * normScale (p :: ps) S := by
  rw [normalizeParticlePositions_cons]
  exact bboxMinY_map_affine _ _ _ _ (normScale_nonneg _ _ hS) p ps

/-- Maximum y of a normalized nonempty cloud. -/
theorem normalize_bboxMaxY (p : Vec3) (ps : List Vec3) (S : ℚ) (hS : 0 ≤ S) :
    bboxMaxY (normalizeParticlePositions (p :: ps) S)
      = (bboxMaxY (p :: ps) - centerY (p :: ps)) * normScale (p :: ps) S := by
  rw [normalizeParticlePositions_cons]
  exact bboxMaxY_map_affine _ _ _ _ (normScale_nonneg _ _ hS) p ps

/-- Minimum z of a normalized nonempty cloud. -/
theorem normalize_bboxMinZ (p : Vec3) (ps : List Vec3) (S : ℚ) (hS : 0 ≤ S) :
    bboxMinZ (normalizeParticlePositions (p :: ps) S)
      = (bboxMinZ (p :: ps) - centerZ (p :: ps)) * normScale (p :: ps) S := by
  rw [normalizeParticlePositions_cons]
  exact bboxMinZ_map_affine _ _ _ _ (normScale_nonneg _ _ hS) p ps

/-- Maximum z of a normalized nonempty cloud. -/
theorem normalize_bboxMaxZ (p : Vec3) (ps : List Vec3) (S : ℚ) (hS : 0 ≤ S) :
    bboxMaxZ (normalizeParticlePositions (p :: ps) S)
      = (bboxMaxZ (p :: ps) - centerZ (p :: ps)) * normScale (p :: ps) S := by
  rw [normalizeParticlePositions_cons]
  exact bboxMaxZ_map_affine _ _ _ _ (normScale_nonneg _ _ hS) p ps

/-- After normalization, per-axis min and max sum to zero (x axis). -/
theorem normalize_sum_x (p : Vec3) (ps : List Vec3) (S : ℚ) (hS : 0 ≤ S) :
    bboxMinX (normalizeParticlePositions (p :: ps) S)
      + bboxMaxX (normalizeParticlePositions (p :: ps) S) = 0 := by
  rw [normalize_bboxMinX p ps S hS, normalize_bboxMaxX p ps S hS]
  unfold centerX
  ring

/-- After normalization, per-axis min and max sum to zero (y axis). -/
theorem normalize_sum_y (p : Vec3) (ps : List Vec3) (S : ℚ) (hS : 0 ≤ S) :
    bboxMinY (normalizeParticlePositions (p :: ps) S)
      + bboxMaxY (normalizeParticlePositions (p :: ps) S) = 0 := by
  rw [normalize_bboxMinY p ps S hS, normalize_bboxMaxY p ps S hS]
  unfold centerY
  ring

/-- After normalization, per-axis min and max sum to zero (z axis). -/
theorem normalize_sum_z (p : Vec3) (ps : List Vec3) (S : ℚ) (hS : 0 ≤ S) :
    bboxMinZ (normalizeParticlePositions (p :: ps) S)
      + bboxMaxZ (normalizeParticlePositions (p :: ps) S) = 0 := by
  rw [normalize_bboxMinZ p ps S hS, normalize_bboxMaxZ p ps S hS]
  unfold centerZ
  ring

/-- Normalization scales the largest bounding-box dimension by the scale. -/
theorem normalize_maxDimension (p : Vec3) (ps : List Vec3) (S : ℚ) (hS : 0 ≤ S) :
    maxDimension (normalizeParticlePositions (p :: ps) S)
      = maxDimension (p :: ps) * normScale (p :: ps) S := by
  have hs : 0 ≤ normScale (p :: ps) S := normScale_nonneg _ _ hS
  unfold maxDimension
  rw [normalize_bboxMinX p ps S hS, normalize_bboxMaxX p ps S hS,
    normalize_bboxMinY p ps S hS, normalize_bboxMaxY p ps S hS,
    normalize_bboxMinZ p ps S hS, normalize_bboxMaxZ p ps S hS]
  have e1 : (bboxMaxX (p :: ps) - centerX (p :: ps)) * normScale (p :: ps) S
      - (bboxMinX (p :: ps) - centerX (p :: ps)) * normScale (p :: ps) S
      = (bboxMaxX (p :: ps) - bboxMinX (p :: ps)) * normScale (p :: ps) S := by ring
  have e2 : (bboxMaxY (p :: ps) - centerY (p :: ps)) * normScale (p :: ps) S
      - (bboxMinY (p :: ps) - centerY (p :: ps)) * normScale (p :: ps) S
      = (bboxMaxY (p :: ps) - bboxMinY (p :: ps)) * normScale (p :: ps) S := by ring
  have e3 : (bboxMaxZ (p :: ps) - centerZ (p :: ps)) * normScale (p :: ps) S
      - (bboxMinZ (p :: ps) - centerZ (p :: ps)) * normScale (p :: ps) S
      = (bboxMaxZ (p :: ps) - bboxMinZ (p :: ps)) * normScale (p :: ps) S := by ring
  rw [e1, e2, e3, max_mul_nonneg _ _ _ hs, max_mul_nonneg _ _ _ hs]

/-- On a degenerate bounding box the normalizer applies scale 1. -/
theorem normScale_degenerate (P : List Vec3) (S : ℚ) (h : maxDimension P = 0) :
    normScale P S = 1 := by
  unfold normScale
  rw [h]
  simp

/-- On a nondegenerate cloud, normalization makes the largest bounding-box
dimension exactly the target size. -/
theorem normalize_maxDimension_eq_target (p : Vec3) (ps : List Vec3) (S : ℚ)
    (hS : 0 < S) (hmd : 0 < maxDimension (p :: ps)) :
    maxDimension (normalizeParticlePositions (p :: ps) S) = S := by
  rw [normalize_maxDimension p ps S hS.le]
  unfold normScale
  rw [if_pos hmd, mul_comm]
  exact div_mul_cancel₀ S (ne_of_gt hmd)

/-- C2: for every nonempty point cloud and target size S > 0, the normalizer
returns a cloud whose per-axis min and max sum to zero (centred at the
origin) and whose largest bounding-box dimension equals S; when the bounding
box is degenerate the applied scale is 1 and the points are only
re-centred.  Over the rationals the floating-point tolerance of the claim
becomes exact equality. -/
theorem normalizer_scales_and_centers (P : List Vec3) (S : ℚ)
    (hne : P ≠ []) (hS : 0 < S) :
    (bboxMinX (normalizeParticlePositions P S) + bboxMaxX (normalizeParticlePositions P S) = 0
      ∧ bboxMinY (normalizeParticlePositions P S) + bboxMaxY (normalizeParticlePositions P S) = 0
      ∧ bboxMinZ (normalizeParticlePositions P S) + bboxMaxZ (normalizeParticlePositions P S) = 0)
    ∧ (0 < maxDimension P → maxDimension (normalizeParticlePositions P S) = S)
    ∧ (maxDimension P = 0 → normScale P S = 1 ∧
        normalizeParticlePositions P S
          = P.map (fun q => ⟨q.x - centerX P, q.y - centerY P, q.z - centerZ P⟩)) := by
  obtain ⟨p, ps, rfl⟩ := List.exists_cons_of_ne_nil hne
  refine ⟨⟨normalize_sum_x p ps S hS.le, normalize_sum_y p ps S hS.le,
      normalize_sum_z p ps S hS.le⟩,
    fun hmd => normalize_maxDimension_eq_target p ps S hS hmd,
    fun hdeg => ⟨normScale_degenerate _ _ hdeg, ?_⟩⟩
  have h1 := normScale_degenerate (p :: ps) S hdeg
  simp only [normalizeParticlePositions_cons, h1, mul_one]

/-- Witness for C2 on a concrete two-point cloud with target size 10. -/
theorem normalizer_scales_and_centers_witness :
    ([⟨0, 0, 0⟩, ⟨2, 0, 0⟩] : List Vec3) ≠ [] ∧ (0 : ℚ) < 10 ∧
    ((bboxMinX (normalizeParticlePositions [⟨0, 0, 0⟩, ⟨2, 0, 0⟩] 10)
        + bboxMaxX (normalizeParticlePositions [⟨0, 0, 0⟩, ⟨2, 0, 0⟩] 10) = 0
      ∧ bboxMinY (normalizeParticlePositions [⟨0, 0, 0⟩, ⟨2, 0, 0⟩] 10)
        + bboxMaxY (normalizeParticlePositions [⟨0, 0, 0⟩, ⟨2, 0, 0⟩] 10) = 0
      ∧ bboxMinZ (normalizeParticlePositions [⟨0, 0, 0⟩, ⟨2, 0, 0⟩] 10)
        + bboxMaxZ (normalizeParticlePositions [⟨0, 0, 0⟩, ⟨2, 0, 0⟩] 10) = 0)
    ∧ (0 < maxDimension [⟨0, 0, 0⟩, ⟨2, 0, 0⟩]
        → maxDimension (normalizeParticlePositions [⟨0, 0, 0⟩, ⟨2, 0, 0⟩] 10) = 10)
    ∧ (maxDimension [⟨0, 0, 0⟩, ⟨2, 0, 0⟩] = 0
        → normScale [⟨0, 0, 0⟩, ⟨2, 0, 0⟩] 10 = 1 ∧
          normalizeParticlePositions [⟨0, 0, 0⟩, ⟨2, 0, 0⟩] 10
            = ([⟨0, 0, 0⟩, ⟨2, 0, 0⟩] : List Vec3).map (fun q =>
                ⟨q.x - centerX [⟨0, 0, 0⟩, ⟨2, 0, 0⟩],
                 q.y - centerY [⟨0, 0, 0⟩, ⟨2, 0, 0⟩],
                 q.z - centerZ [⟨0, 0, 0⟩, ⟨2, 0, 0⟩]⟩))) :=
  ⟨by decide, by norm_num,
    normalizer_scales_and_centers [⟨0, 0, 0⟩, ⟨2, 0, 0⟩] 10 (by decide) (by norm_num)⟩

/-- C7: the normalizer is idempotent; renormalizing an already-normalized
cloud at the same target size returns it unchanged (exactly, over the
rationals). -/
theorem normalizer_idempotent (P : List Vec3) (S : ℚ) (hS : 0 < S) :
    normalizeParticlePositions (normalizeParticlePositions P S) S
      = normalizeParticlePositions P S := by
  cases P with
  | nil => rfl
  | cons p ps =>
    have hx : centerX (normalizeParticlePositions (p :: ps) S) = 0 := by
      unfold centerX
      rw [normalize_sum_x p ps S hS.le]
      norm_num
    have hy : centerY (normalizeParticlePositions (p :: ps) S) = 0 := by
      unfold centerY
      rw [normalize_sum_y p ps S hS.le]
      norm_num
    have hz : centerZ (normalizeParticlePositions (p :: ps) S) = 0 := by
      unfold centerZ
      rw [normalize_sum_z p ps S hS.le]
      norm_num
    have hscale : normScale (normalizeParticlePositions (p :: ps) S) S = 1 := by
      rcases (maxDimension_nonneg p ps).lt_or_eq with hmd | hmd
      · have hmdq : maxDimension (normalizeParticlePositions (p :: ps) S) = S :=
          normalize_maxDimension_eq_target p ps S hS hmd
        unfold normScale
        rw [hmdq, if_pos hS]
        exact div_self (ne_of_gt hS)
      · have hmdq : maxDimension (normalizeParticlePositions (p :: ps) S) = 0 := by
          rw [normalize_maxDimension p ps S hS.le, ← hmd, zero_mul]
        exact normScale_degenerate _ _ hmdq
    have hQcons := normalizeParticlePositions_cons p ps S
    rw [List.map_cons] at hQcons
    rw [hQcons, normalizeParticlePositions_cons, ← hQcons, hx, hy, hz, hscale]
    simp only [sub_zero, mul_one]
    rw [show (fun q : Vec3 => (⟨q.x, q.y, q.z⟩ : Vec3)) = id from rfl, List.map_id]

/-- Witness for C7 on a concrete two-point cloud with target size 10. -/
theorem normalizer_idempotent_witness :
    (0 : ℚ) < 10 ∧
    normalizeParticlePositions (normalizeParticlePositions [⟨1, 2, 3⟩, ⟨5, 2, 3⟩] 10) 10
      = normalizeParticlePositions [⟨1, 2, 3⟩, ⟨5, 2, 3⟩] 10 :=
  ⟨by norm_num, normalizer_idempotent [⟨1, 2, 3⟩, ⟨5, 2, 3⟩] 10 (by norm_num)⟩

/-!
## Point Cloud Extractor

Embedding of `getDensityWeight`, `getEdgeBrightness` and
`CreateParticlePositions.createParticles` from
`src/components/canvas/ParticleSystem.tsx` (lines 30-39, 57-91, 111-278),
with the configuration tables of `src/enum/ParticlesEnum.ts`.

Configuration objects `Record<string, number>` become partial maps
`String → Option Rat`; an absent key is `none`.  The JavaScript truthiness
test `if (NAME_DENSITY_WEIGHTS[name])` is false both for an absent key
(`undefined`) and for a present value `0`, which the embedding renders as
the `some w` branch testing `w = 0`.
-/

/-- Embedding of `getDensityWeight(name)`: empty names fall back to the
default; a present entry is returned only when truthy (nonzero). -/
def getDensityWeight (table : String → Option ℚ) (dflt : ℚ) (name : String) : ℚ :=
  if name = "" then dflt
  else
    match table name with
    | some w => if w = 0 then dflt else w
    | none => dflt

/-- Embedding of `getEdgeBrightness(name)` along its common-configuration
path (the per-model `config` argument is `undefined` for every model the
repository loads): a present entry is returned whenever the key exists
(an `!== undefined` test, presence rather than truthiness). -/
def getEdgeBrightness (names : String → Option ℚ) (dflt : ℚ) (name : String) : ℚ :=
  if name = "" then dflt
  else
    match names name with
    | some b => b
    | none => dflt

/-- The `NAME_DENSITY_WEIGHTS` object of `ParticlesEnum.ts`, which holds
only its `default` key (value 1.0). -/
def NAME_DENSITY_WEIGHTS_table : String → Option ℚ :=
  fun n => if n = "default" then some 1 else none

/-- The default density weight `NAME_DENSITY_WEIGHTS.default`. -/
def NAME_DENSITY_WEIGHTS_default : ℚ := 1

/-- One collected vertex together with its edge-brightness tag. -/
structure VertexData where
  position : Vec3
  edgeBrightness : ℚ
deriving DecidableEq, Repr

/-- One mesh of the traversed GLTF hierarchy: its name, the world-matrix
transform applied to each vertex (`matrixWorld` composed with the scene
matrix), and its geometry position attribute. -/
structure MeshNode where
  name : String
  transform : Vec3 → Vec3
  verts : List Vec3

/-- Density-weighted replication of one vertex: a weight at least 1 pushes
`floor(weight)` guaranteed copies plus one more with probability equal to
the fractional part; a weight below 1 pushes one copy with probability
equal to the weight.  `r` is the `Math.random()` draw of this vertex. -/
def replicateVertex (w eb : ℚ) (p : Vec3) (r : ℚ) : List VertexData :=
  if 1 ≤ w then
    List.replicate (⌊w⌋.toNat) ⟨p, eb⟩
      ++ (if r < w - ⌊w⌋ then [⟨p, eb⟩] else [])
  else
    if r < w then [⟨p, eb⟩] else []

/-- The traversal of `createParticles`: walk every mesh, look up its density
weight and edge brightness by name, transform each vertex to world space and
replicate it by density.  `rand` is the `Math.random()` stream keyed by
(mesh index, vertex index), one draw per vertex as in the source. -/
def collectVertices (densityTable : String → Option ℚ) (densityDefault : ℚ)
    (brightnessNames : String → Option ℚ) (brightnessDefault : ℚ)
    (rand : ℕ → ℕ → ℚ) (meshes : List MeshNode) : List VertexData :=
  meshes.enum.flatMap (fun mi =>
    let m := mi.2
    let dw := getDensityWeight densityTable densityDefault m.name
    let eb := getEdgeBrightness brightnessNames brightnessDefault m.name
    m.verts.enum.flatMap (fun vi =>
      replicateVertex dw eb (m.transform vi.2) (rand mi.1 vi.1)))

/-- Resampling step of `createParticles`: produce exactly `count` particles
from the collected vertex list.  Empty list: zero positions and the default
brightness.  At least `count` vertices: stride sampling with a random
jitter bounded by `ceil(step)` and clamped to the last index.  Fewer than
`count` vertices: cyclic sampling `floor((i / count) * length) % length`.
`rand` is the `Math.random()` stream keyed by the output index. -/
def sampleParticles (vertices : List VertexData) (count : ℕ)
    (fallbackBrightness : ℚ) (rand : ℕ → ℚ) : List ℚ × List ℚ :=
  if vertices = [] then
    (List.replicate (count * 3) 0, List.replicate count fallbackBrightness)
  else if count ≤ vertices.length then
    let step : ℚ := (vertices.length : ℚ) / (count : ℚ)
    let chosen := (List.range count).map (fun (i : ℕ) =>
      let virtualIndex : ℚ := (i : ℚ) * step
      let baseIndex := (⌊virtualIndex⌋).toNat
      let randomOffset := (⌊rand i * ((max 1 ⌈step⌉ : ℤ) : ℚ)⌋).toNat
      let index := min (baseIndex + randomOffset) (vertices.length - 1)
      vertices.getD index ⟨0, 0⟩)
    (chosen.flatMap (fun v => [v.position.x, v.position.y, v.position.z]),
     chosen.map VertexData.edgeBrightness)
  else
    let chosen := (List.range count).map (fun (i : ℕ) =>
      let virtualIndex : ℚ := ((i : ℚ) / (count : ℚ)) * (vertices.length : ℚ)
      let index := (⌊virtualIndex⌋).toNat % vertices.length
      vertices.getD index ⟨0, 0⟩)
    (chosen.flatMap (fun v => [v.position.x, v.position.y, v.position.z]),
     chosen.map VertexData.edgeBrightness)

/-- Embedding of `CreateParticlePositions.createParticles()`: collect the
density-replicated world-space vertices, then resample to exactly `count`
particles.  The fallback brightness of the empty case is
`edgeBrightnessConfig?.default ?? 1.0`, which is 1 for every model the
repository loads (no per-model config is passed). -/
def createParticles (meshes : List MeshNode) (count : ℕ)
    (densityTable : String → Option ℚ) (densityDefault : ℚ)
    (brightnessNames : String → Option ℚ) (brightnessDefault : ℚ)
    (randRep : ℕ → ℕ → ℚ) (randSample : ℕ → ℚ) : List ℚ × List ℚ :=
  sampleParticles
    (collectVertices densityTable densityDefault brightnessNames brightnessDefault
      randRep meshes)
    count 1 randSample

/-- Flattening three scalars per particle triples the length. -/
theorem length_flatMap_triple (l : List VertexData) :
    (l.flatMap (fun v => [v.position.x, v.position.y, v.position.z])).length
      = 3 * l.length := by
  induction l with
  | nil => rfl
  | cons v t ih =>
    simp only [List.flatMap_cons, List.length_append, List.length_cons, ih,
      List.length_nil]
    omega

/-- The resampling step always emits `3 * count` scalars and `count`
brightness values, whichever branch it takes. -/
theorem sampleParticles_lengths (vertices : List VertexData) (count : ℕ)
    (fb : ℚ) (rand : ℕ → ℚ) :
    (sampleParticles vertices count fb rand).1.length = 3 * count
      ∧ (sampleParticles vertices count fb rand).2.length = count := by
  unfold sampleParticles
  by_cases h1 : vertices = []
  · rw [if_pos h1]
    constructor
    · simp only [List.length_replicate]
      omega
    · simp only [List.length_replicate]
  · rw [if_neg h1]
    by_cases h2 : count ≤ vertices.length
    · rw [if_pos h2]
      constructor
      · simp only [length_flatMap_triple, List.length_map, List.length_range]
      · simp only [List.length_map, List.length_range]
    · rw [if_neg h2]
      constructor
      · simp only [length_flatMap_triple, List.length_map, List.length_range]
      · simp only [List.length_map, List.length_range]

/-- C1: for every particle count and every mesh input (every table, stream
and hierarchy, including one with no meshes or no extractable vertices),
`createParticles` returns a positions array of length exactly `3 * count`
and an edge-brightness array of length exactly `count`. -/
theorem createParticles_lengths (meshes : List MeshNode) (count : ℕ)
    (densityTable : String → Option ℚ) (densityDefault : ℚ)
    (brightnessNames : String → Option ℚ) (brightnessDefault : ℚ)
    (randRep : ℕ → ℕ → ℚ) (randSample : ℕ → ℚ) :
    (createParticles meshes count densityTable densityDefault brightnessNames
        brightnessDefault randRep randSample).1.length = 3 * count
      ∧ (createParticles meshes count densityTable densityDefault brightnessNames
        brightnessDefault randRep randSample).2.length = count := by
  unfold createParticles
  exact sampleParticles_lengths _ count 1 randSample

/-- C10: a mesh name that the density table maps to the falsy value 0 is
given the default weight 1 (the lookup tests truthiness, not presence), so
the vertex is still replicated once, at full density. -/
theorem densityWeight_zero_falls_back_to_default
    (table : String → Option ℚ) (name : String) (eb : ℚ) (p : Vec3) (r : ℚ)
    (h : table name = some 0) (hr : 0 ≤ r) :
    getDensityWeight table NAME_DENSITY_WEIGHTS_default name
        = NAME_DENSITY_WEIGHTS_default
      ∧ getDensityWeight table NAME_DENSITY_WEIGHTS_default name = 1
      ∧ replicateVertex (getDensityWeight table NAME_DENSITY_WEIGHTS_default name)
          eb p r = [⟨p, eb⟩] := by
  have hget : getDensityWeight table NAME_DENSITY_WEIGHTS_default name = 1 := by
    unfold getDensityWeight NAME_DENSITY_WEIGHTS_default
    by_cases hn : name = ""
    · rw [if_pos hn]
    · rw [if_neg hn, h]
      simp
  refine ⟨hget, hget, ?_⟩
  rw [hget]
  unfold replicateVertex
  rw [if_pos le_rfl]
  norm_num
  exact hr

/-- Witness for C10: the table entry `glass ↦ 0` is ignored in favour of the
default weight 1, and the vertex is replicated once. -/
theorem densityWeight_zero_falls_back_to_default_witness :
    (fun n => if n = "glass" then some (0 : ℚ) else none) "glass" = some 0
      ∧ (0 : ℚ) ≤ 1 / 2
      ∧ (getDensityWeight (fun n => if n = "glass" then some (0 : ℚ) else none)
            NAME_DENSITY_WEIGHTS_default "glass" = NAME_DENSITY_WEIGHTS_default
        ∧ getDensityWeight (fun n => if n = "glass" then some (0 : ℚ) else none)
            NAME_DENSITY_WEIGHTS_default "glass" = 1
        ∧ replicateVertex
            (getDensityWeight (fun n => if n = "glass" then some (0 : ℚ) else none)
              NAME_DENSITY_WEIGHTS_default "glass")
            2 ⟨1, 2, 3⟩ (1 / 2) = [⟨⟨1, 2, 3⟩, 2⟩]) :=
  ⟨by norm_num, by norm_num,
    densityWeight_zero_falls_back_to_default _ "glass" 2 ⟨1, 2, 3⟩ (1 / 2)
      (by norm_num) (by norm_num)⟩

/-!
## Morph engine

State machines of `ParticleSystem.tsx` (namespace `PS`) and
`ParticleMorphSystem.tsx` (namespace `PMS`).  The transcendental library
calls of the source are supplied by an `Oracle` of uninterpreted functions.
-/

/-- Uninterpreted transcendental primitives used by the morph engine:
`sinpi t` stands for `Math.sin(t * Math.PI)`, `sin` for `Math.sin`,
`noise3` / `noise4` for the simplex-noise samplers, `rand` for the
`Math.random()` stream keyed by the particle index at which it is drawn,
`normalize` for `Vector3.normalize`, `axisAngle a θ v` for
`v.applyAxisAngle(a, θ)` and `dist` for `Vector3.distanceTo`. -/
structure Oracle where
  sinpi : ℚ → ℚ
  sin : ℚ → ℚ
  noise3 : ℚ → ℚ → ℚ → ℚ
  noise4 : ℚ → ℚ → ℚ → ℚ → ℚ
  rand : ℕ → ℚ
  normalize : Vec3 → Vec3
  axisAngle : Vec3 → ℚ → Vec3 → Vec3
  dist : Vec3 → Vec3 → ℚ

/-- An oracle whose scalar primitives all return 0 (in particular
`sinpi 0 = 0` and `sinpi 1 = 0`, the values of `sin (t * pi)` there). -/
def trivialOracle : Oracle :=
  ⟨fun _ => 0, fun _ => 0, fun _ _ _ => 0, fun _ _ _ _ => 0, fun _ => 0,
   fun v => v, fun _ _ v => v, fun _ _ => 0⟩

/-- `MORPH_CONFIG.duration` (ms) from `ParticlesEnum.ts`. -/
def MORPH_CONFIG_duration : ℚ := 4000

/-- `MORPH_CONFIG.swirlFactor` from `ParticlesEnum.ts`. -/
def MORPH_CONFIG_swirlFactor : ℚ := 1

/-- `MORPH_CONFIG.noiseFrequency` from `ParticlesEnum.ts`. -/
def MORPH_CONFIG_noiseFrequency : ℚ := 1 / 100

/-- `MORPH_CONFIG.noiseTimeScale` from `ParticlesEnum.ts`. -/
def MORPH_CONFIG_noiseTimeScale : ℚ := 1 / 25

/-- `MORPH_CONFIG.noiseMaxStrength` from `ParticlesEnum.ts` (set to 0.0). -/
def MORPH_CONFIG_noiseMaxStrength : ℚ := 0

/-- `MORPH_CONFIG.swarmDistanceFactor` from `ParticlesEnum.ts`. -/
def MORPH_CONFIG_swarmDistanceFactor : ℚ := 3 / 2

/-- The raw (un-eased) morph progress,
`Math.min(elapsed / duration, 1)` in both animate loops. -/
def rawProgress (elapsed duration : ℚ) : ℚ := min (elapsed / duration) 1

/-- The custom easing of both animate loops:
`3t² − 2t³ + (t³ − 2t² + t) · 0.4`. -/
def easeProgress (t : ℚ) : ℚ :=
  3 * t ^ 2 - 2 * t ^ 3 + (t ^ 3 - 2 * t ^ 2 + t) * (2 / 5)

/-- `TypedArray.prototype.set`: overwrite the prefix of `dst` with `src`,
keeping any remaining tail of `dst`. -/
def setBuffer (dst src : List Vec3) : List Vec3 := src ++ dst.drop src.length

/-- When source and destination have equal length, `setBuffer` replaces the
destination entirely. -/
theorem setBuffer_eq (dst src : List Vec3) (h : src.length = dst.length) :
    setBuffer dst src = src := by
  unfold setBuffer
  rw [h, List.drop_length, List.append_nil]

/-- The swarm waypoint of one particle, computed at morph trigger time:
lerp halfway between source and target, then offset along a noise-derived
direction by `0.1 · distance + centerOffsetAmount`, scaled by a random
factor in [0.5, 1.3). -/
def swarmPoint (o : Oracle) (centerOffsetAmount : ℚ) (i : ℕ) (src tgt : Vec3) : Vec3 :=
  let swarmVec := Vec3.lerp src tgt (1 / 2)
  let offsetDir := o.normalize
    ⟨o.noise3 ((i : ℚ) * (1 / 20)) 10 10,
     o.noise3 20 ((i : ℚ) * (1 / 20)) 20,
     o.noise3 30 30 ((i : ℚ) * (1 / 20))⟩
  let distFactor := o.dist src tgt * (1 / 10) + centerOffsetAmount
  Vec3.addScaled swarmVec offsetDir (distFactor * (1 / 2 + o.rand i * (4 / 5)))

/-- The swarm-buffer computation loop shared by both `triggerMorph`
implementations (the loop runs over every particle index of the source
buffer). -/
def computeSwarm (o : Oracle) (centerOffsetAmount : ℚ) (src tgt : List Vec3) :
    List Vec3 :=
  (List.range src.length).map (fun i =>
    swarmPoint o centerOffsetAmount i (src.getD i 0) (tgt.getD i 0))

namespace PS

/-- The morph-relevant state of the `ParticleSystem` component: the React
state cells (`isMorphing`, `morphProgress`, `currentModelIndex`), the refs
(`nextModelIndexRef`, position buffer refs, `modelPositionsRef`) and the
`startTime` captured by the animate closure of an active morph. -/
structure State where
  isMorphing : Bool
  morphProgress : ℚ
  currentModelIndex : ℕ
  nextModelIndex : ℕ
  currentPositions : Option (List Vec3)
  sourcePositions : Option (List Vec3)
  swarmPositions : Option (List Vec3)
  modelPositions : List (List Vec3)
  startTime : Option ℚ
deriving DecidableEq, Repr

/-- The model-name list used for the shape-changed notification of
`ParticleSystem.tsx`. -/
def modelNames : List String := ["Gamepad", "Card", "Saturn", "FilledSphere", "Plane"]

/-- Embedding of `triggerMorph` of `ParticleSystem.tsx` (lines 1030-1136,
up to scheduling the animate loop): guarded no-op, else mark morphing,
pick the next model index cyclically, recompute the swarm buffer and record
the wall-clock start time. -/
def triggerMorph (s : State) (o : Oracle) (now : ℚ) : State :=
  if s.isMorphing = true ∨ s.currentPositions = none ∨ s.sourcePositions = none
      ∨ s.swarmPositions = none ∨ s.modelPositions = [] then s
  else
    let next := (s.currentModelIndex + 1) % s.modelPositions.length
    let tgt := s.modelPositions.getD next []
    let swarm := computeSwarm o (10 * MORPH_CONFIG_swarmDistanceFactor)
      (s.sourcePositions.getD []) tgt
    { s with isMorphing := true, nextModelIndex := next,
             swarmPositions := some swarm, startTime := some now }

/-- Embedding of one call of the `animate` closure of `triggerMorph`
(`ParticleSystem.tsx` lines 1081-1135).  `geo` is the live geometry
position buffer (`meshRef.current.geometry.attributes.position.array`);
the returned string is the `onShapeChange` notification.  Below 1 the raw
progress only stores the eased progress; at 1 the morph completes: the
current model index advances, the live geometry contents are copied into
the current and source buffers, progress is reset and the notification
carries the new model name. -/
def animateFrame (s : State) (geo : Option (List Vec3)) (now : ℚ) :
    State × Option String :=
  let elapsed := now - s.startTime.getD 0
  let progress := rawProgress elapsed MORPH_CONFIG_duration
  let ease := easeProgress progress
  if progress < 1 then
    ({ s with morphProgress := ease }, none)
  else
    let next := s.nextModelIndex
    let s1 := { s with currentModelIndex := next }
    let s2 :=
      match s1.currentPositions, s1.modelPositions.get? next,
          s1.sourcePositions, geo with
      | some cur, some _, some src, some final =>
          { s1 with currentPositions := some (setBuffer cur final),
                    sourcePositions := some (setBuffer src final) }
      | _, _, _, _ => s1
    ({ s2 with morphProgress := 0, isMorphing := false }, modelNames.get? next)

end PS

/-- C4: calling `triggerMorph` while a morph is active, or before any of
the position buffers is initialized, or with no loaded models, changes no
part of the morph state: in particular the target index, the swarm buffer
and the recorded start time are unaltered (and the embedding is a total
function, so no exception can be raised). -/
theorem triggerMorph_guard_noop (s : PS.State) (o : Oracle) (now : ℚ)
    (h : s.isMorphing = true ∨ s.currentPositions = none ∨ s.sourcePositions = none
        ∨ s.swarmPositions = none ∨ s.modelPositions = []) :
    PS.triggerMorph s o now = s
    ∧ (PS.triggerMorph s o now).nextModelIndex = s.nextModelIndex
    ∧ (PS.triggerMorph s o now).swarmPositions = s.swarmPositions
    ∧ (PS.triggerMorph s o now).startTime = s.startTime := by
  have h0 : PS.triggerMorph s o now = s := by
    unfold PS.triggerMorph
    rw [if_pos h]
  exact ⟨h0, by rw [h0], by rw [h0], by rw [h0]⟩

/-- Witness for C4: a trigger received mid-morph leaves the state alone. -/
theorem triggerMorph_guard_noop_witness :
    ((⟨true, 0, 0, 0, none, none, none, [], none⟩ : PS.State).isMorphing = true
      ∨ (⟨true, 0, 0, 0, none, none, none, [], none⟩ : PS.State).currentPositions = none
      ∨ (⟨true, 0, 0, 0, none, none, none, [], none⟩ : PS.State).sourcePositions = none
      ∨ (⟨true, 0, 0, 0, none, none, none, [], none⟩ : PS.State).swarmPositions = none
      ∨ (⟨true, 0, 0, 0, none, none, none, [], none⟩ : PS.State).modelPositions = [])
    ∧ (PS.triggerMorph ⟨true, 0, 0, 0, none, none, none, [], none⟩ trivialOracle 5
          = ⟨true, 0, 0, 0, none, none, none, [], none⟩
      ∧ (PS.triggerMorph ⟨true, 0, 0, 0, none, none, none, [], none⟩ trivialOracle 5).nextModelIndex
          = (⟨true, 0, 0, 0, none, none, none, [], none⟩ : PS.State).nextModelIndex
      ∧ (PS.triggerMorph ⟨true, 0, 0, 0, none, none, none, [], none⟩ trivialOracle 5).swarmPositions
          = (⟨true, 0, 0, 0, none, none, none, [], none⟩ : PS.State).swarmPositions
      ∧ (PS.triggerMorph ⟨true, 0, 0, 0, none, none, none, [], none⟩ trivialOracle 5).startTime
          = (⟨true, 0, 0, 0, none, none, none, [], none⟩ : PS.State).startTime) :=
  ⟨Or.inl rfl,
    triggerMorph_guard_noop ⟨true, 0, 0, 0, none, none, none, [], none⟩
      trivialOracle 5 (Or.inl rfl)⟩

/-- C6: the raw progress equals `clamp(elapsed / duration, 0, 1)` for a
nonnegative elapsed time, the morph progress stored by a running animate
frame is exactly the polynomial `3r² − 2r³ + (r³ − 2r² + r) · 0.4` of the
raw progress, and the easing maps 0 to 0 and 1 to 1. -/
theorem morph_easing_polynomial (s : PS.State) (geo : Option (List Vec3))
    (now t0 : ℚ) (hst : s.startTime = some t0) (h0 : 0 ≤ now - t0) :
    rawProgress (now - t0) MORPH_CONFIG_duration
        = max 0 (min ((now - t0) / MORPH_CONFIG_duration) 1)
    ∧ (rawProgress (now - t0) MORPH_CONFIG_duration < 1 →
        (PS.animateFrame s geo now).1.morphProgress
          = 3 * rawProgress (now - t0) MORPH_CONFIG_duration ^ 2
            - 2 * rawProgress (now - t0) MORPH_CONFIG_duration ^ 3
            + (rawProgress (now - t0) MORPH_CONFIG_duration ^ 3
              - 2 * rawProgress (now - t0) MORPH_CONFIG_duration ^ 2
              + rawProgress (now - t0) MORPH_CONFIG_duration) * (2 / 5))
    ∧ easeProgress 0 = 0 ∧ easeProgress 1 = 1 := by
  refine ⟨?_, ?_, by norm_num [easeProgress], by norm_num [easeProgress]⟩
  · unfold rawProgress
    rw [max_eq_right]
    exact le_min (div_nonneg h0 (by norm_num [MORPH_CONFIG_duration])) zero_le_one
  · intro hlt
    unfold PS.animateFrame
    rw [hst]
    simp only [Option.getD_some]
    rw [if_pos hlt]
    show easeProgress (rawProgress (now - t0) MORPH_CONFIG_duration) = _
    unfold easeProgress
    ring

/-- Witness for C6 at elapsed time 2000 of a 4000 ms morph. -/
theorem morph_easing_polynomial_witness :
    (⟨true, 0, 0, 1, none, none, none, [], some 0⟩ : PS.State).startTime = some 0
    ∧ (0 : ℚ) ≤ 2000 - 0
    ∧ (rawProgress (2000 - 0) MORPH_CONFIG_duration
          = max 0 (min ((2000 - 0) / MORPH_CONFIG_duration) 1)
      ∧ (rawProgress (2000 - 0) MORPH_CONFIG_duration < 1 →
          (PS.animateFrame ⟨true, 0, 0, 1, none, none, none, [], some 0⟩
              none 2000).1.morphProgress
            = 3 * rawProgress (2000 - 0) MORPH_CONFIG_duration ^ 2
              - 2 * rawProgress (2000 - 0) MORPH_CONFIG_duration ^ 3
              + (rawProgress (2000 - 0) MORPH_CONFIG_duration ^ 3
                - 2 * rawProgress (2000 - 0) MORPH_CONFIG_duration ^ 2
                + rawProgress (2000 - 0) MORPH_CONFIG_duration) * (2 / 5))
      ∧ easeProgress 0 = 0 ∧ easeProgress 1 = 1) :=
  ⟨rfl, by norm_num,
    morph_easing_polynomial ⟨true, 0, 0, 1, none, none, none, [], some 0⟩
      none 2000 0 rfl (by norm_num)⟩

namespace PS

/-- The per-particle body of `updateMorphAnimation` (`ParticleSystem.tsx`
lines 1171-1231): quadratic Bezier through (source, swarm, target) at the
eased progress `t`, then — only while the respective effect exceeds the
0.01 threshold — a swirl rotation of the vector from the source around a
noise-derived axis, and a 4D-noise offset scaled by the noise strength.
`Math.sin(t * Math.PI)` is `o.sinpi t`; the per-particle `Math.random()`
draw of the swirl is `o.rand i`. -/
def morphPosition (o : Oracle) (t elapsedTime : ℚ) (i : ℕ)
    (src swarm tgt : Vec3) : Vec3 :=
  let effectStrength := o.sinpi t
  let currentSwirl := effectStrength * MORPH_CONFIG_swirlFactor * (1 / 20)
  let currentNoise := effectStrength * MORPH_CONFIG_noiseMaxStrength
  let t_inv := 1 - t
  let t_inv_sq := t_inv * t_inv
  let t_sq := t * t
  let bez := Vec3.addScaled
    (Vec3.addScaled (src.smul t_inv_sq) swarm (2 * t_inv * t)) tgt t_sq
  let bez1 :=
    if 1 / 100 < currentSwirl then
      let tempVec := bez - src
      let swirlAxis := o.normalize
        ⟨o.noise3 ((i : ℚ) * (1 / 50)) (elapsedTime * (1 / 10)) 0,
         o.noise3 0 ((i : ℚ) * (1 / 50)) (elapsedTime * (1 / 10) + 5),
         o.noise3 (elapsedTime * (1 / 10) + 10) 0 ((i : ℚ) * (1 / 50))⟩
      src + o.axisAngle swirlAxis (currentSwirl * (1 / 2 + o.rand i * (1 / 2))) tempVec
    else bez
  if 1 / 100 < currentNoise then
    let noiseTime := elapsedTime * MORPH_CONFIG_noiseTimeScale
    Vec3.addScaled bez1
      ⟨o.noise4 (bez1.x * MORPH_CONFIG_noiseFrequency)
          (bez1.y * MORPH_CONFIG_noiseFrequency)
          (bez1.z * MORPH_CONFIG_noiseFrequency) noiseTime,
       o.noise4 (bez1.x * MORPH_CONFIG_noiseFrequency + 100)
          (bez1.y * MORPH_CONFIG_noiseFrequency + 100)
          (bez1.z * MORPH_CONFIG_noiseFrequency + 100) noiseTime,
       o.noise4 (bez1.x * MORPH_CONFIG_noiseFrequency + 200)
          (bez1.y * MORPH_CONFIG_noiseFrequency + 200)
          (bez1.z * MORPH_CONFIG_noiseFrequency + 200) noiseTime⟩
      currentNoise
  else bez1

/-- Embedding of `updateMorphAnimation(positions, elapsedTime)`
(`ParticleSystem.tsx` lines 1139-1234): guarded no-op when any ref is
unset or no models are loaded; otherwise every particle slot of the live
buffer is rewritten with `morphPosition` at the stored morph progress,
against the target buffer selected by `nextModelIndex` while morphing and
`currentModelIndex` otherwise. -/
def updateMorphAnimation (o : Oracle) (s : State) (positions : List Vec3)
    (elapsedTime : ℚ) : List Vec3 :=
  if s.sourcePositions = none ∨ s.swarmPositions = none
      ∨ s.currentPositions = none ∨ s.modelPositions = [] then positions
  else
    let src := s.sourcePositions.getD []
    let swarm := s.swarmPositions.getD []
    let targetIndex := if s.isMorphing then s.nextModelIndex else s.currentModelIndex
    let targets := s.modelPositions.getD targetIndex []
    (List.range positions.length).map (fun i =>
      morphPosition o s.morphProgress elapsedTime i
        (src.getD i 0) (swarm.getD i 0) (targets.getD i 0))

end PS

namespace PMS

/-- `CONFIG.shapeSize` of `ParticleMorphSystem.tsx`. -/
def CONFIG_shapeSize : ℚ := 14

/-- `CONFIG.swarmDistanceFactor` of `ParticleMorphSystem.tsx`. -/
def CONFIG_swarmDistanceFactor : ℚ := 3 / 2

/-- `CONFIG.morphDuration` (ms) of `ParticleMorphSystem.tsx`. -/
def CONFIG_morphDuration : ℚ := 4000

/-- `CONFIG.idleFlowStrength` of `ParticleMorphSystem.tsx`. -/
def CONFIG_idleFlowStrength : ℚ := 1 / 4

/-- `CONFIG.idleFlowSpeed` of `ParticleMorphSystem.tsx`. -/
def CONFIG_idleFlowSpeed : ℚ := 2 / 25

/-- The shape names of the `SHAPES` array of `shapeGenerators.ts` (the
random generator functions attached to each entry are not needed by any
claim). -/
def SHAPES : List String := ["Sphere", "Cube", "Pyramid", "Torus", "Galaxy", "Spiral"]

/-- Embedding of `updateIdleAnimation(positions, effectStrengths,
elapsedTime)` (`ParticleMorphSystem.tsx` lines 346-398): every particle
slot is lerped 5% towards its breathing-and-flow target derived from the
source buffer (the writes into `effectStrengths` are not modelled; they do
not touch the live position buffer).  The loop runs over every particle
index of the live buffer. -/
def updateIdleAnimation (o : Oracle) (sourcePositions : Option (List Vec3))
    (positions : List Vec3) (elapsedTime : ℚ) : List Vec3 :=
  if sourcePositions = none then positions
  else
    let src := sourcePositions.getD []
    let breathScale := 1 + o.sin (elapsedTime * (1 / 2)) * (3 / 200)
    let timeScaled := elapsedTime * CONFIG_idleFlowSpeed
    (List.range positions.length).map (fun i =>
      let tempVec := (src.getD i 0).smul breathScale
      let flowVec : Vec3 :=
        ⟨o.noise4 (tempVec.x * (1 / 10)) (tempVec.y * (1 / 10))
            (tempVec.z * (1 / 10)) timeScaled,
         o.noise4 (tempVec.x * (1 / 10) + 10) (tempVec.y * (1 / 10) + 10)
            (tempVec.z * (1 / 10) + 10) timeScaled,
         o.noise4 (tempVec.x * (1 / 10) + 20) (tempVec.y * (1 / 10) + 20)
            (tempVec.z * (1 / 10) + 20) timeScaled⟩
      Vec3.lerp (positions.getD i 0)
        (Vec3.addScaled tempVec flowVec CONFIG_idleFlowStrength) (1 / 20))

end PMS

/-- At progress 0 the update writes exactly the source position: the Bezier
collapses to its first control point and both perturbations are switched
off because the effect strength `sin(0 · pi)` is 0. -/
theorem morphPosition_at_zero (o : Oracle) (e : ℚ) (i : ℕ) (src swarm tgt : Vec3)
    (h0 : o.sinpi 0 = 0) :
    PS.morphPosition o 0 e i src swarm tgt = src := by
  unfold PS.morphPosition
  rw [h0]
  simp only [zero_mul]
  norm_num
  simp [Vec3.addScaled, Vec3.smul]

/-- At progress 1 the update writes exactly the target position: the Bezier
collapses to its last control point and both perturbations are switched
off because the effect strength `sin(1 · pi)` is 0. -/
theorem morphPosition_at_one (o : Oracle) (e : ℚ) (i : ℕ) (src swarm tgt : Vec3)
    (h1 : o.sinpi 1 = 0) :
    PS.morphPosition o 1 e i src swarm tgt = tgt := by
  unfold PS.morphPosition
  rw [h1]
  simp only [zero_mul]
  norm_num
  simp [Vec3.addScaled, Vec3.smul]

/-- Indexing into a map over `List.range`. -/
theorem getD_range_map {α : Type} (n i : ℕ) (f : ℕ → α) (d : α) (hi : i < n) :
    ((List.range n).map f).getD i d = f i := by
  rw [List.getD_eq_getElem?_getD, List.getElem?_map, List.getElem?_range hi]
  rfl

/-- C5: for every particle slot, the per-frame morph update at eased
progress 0 writes exactly the source position of that slot, and at eased
progress 1 writes exactly the target position of that slot; the hypotheses
on `sinpi` are the two endpoint values of `Math.sin(t * Math.PI)` that make
the swirl and noise perturbations inactive. -/
theorem morph_update_endpoints (o : Oracle) (s : PS.State)
    (positions : List Vec3) (e : ℚ) (i : ℕ) (src swarm : List Vec3)
    (h0 : o.sinpi 0 = 0) (h1 : o.sinpi 1 = 0)
    (hsrc : s.sourcePositions = some src) (hsw : s.swarmPositions = some swarm)
    (hcur : s.currentPositions ≠ none) (hm : s.modelPositions ≠ [])
    (hi : i < positions.length) :
    (s.morphProgress = 0 →
      (PS.updateMorphAnimation o s positions e).getD i 0 = src.getD i 0)
    ∧ (s.morphProgress = 1 →
      (PS.updateMorphAnimation o s positions e).getD i 0
        = ((s.modelPositions.getD
            (if s.isMorphing then s.nextModelIndex else s.currentModelIndex)
            []).getD i 0)) := by
  have hred : PS.updateMorphAnimation o s positions e
      = (List.range positions.length).map (fun j =>
          PS.morphPosition o s.morphProgress e j (src.getD j 0) (swarm.getD j 0)
            ((s.modelPositions.getD
              (if s.isMorphing then s.nextModelIndex else s.currentModelIndex)
              []).getD j 0)) := by
    unfold PS.updateMorphAnimation
    rw [if_neg (by simp [hsrc, hsw, hm, hcur])]
    rw [hsrc, hsw]
    rfl
  refine ⟨fun hp => ?_, fun hp => ?_⟩
  · rw [hred, getD_range_map _ _ _ _ hi, hp]
    exact morphPosition_at_zero o e i _ _ _ h0
  · rw [hred, getD_range_map _ _ _ _ hi, hp]
    exact morphPosition_at_one o e i _ _ _ h1

/-- A concrete one-particle engine state used by the C5 witness. -/
def c5State : PS.State :=
  ⟨true, 0, 0, 1, some [⟨9, 9, 9⟩], some [⟨1, 1, 1⟩], some [⟨2, 2, 2⟩],
    [[⟨3, 3, 3⟩], [⟨4, 4, 4⟩]], some 0⟩

/-- Witness for C5 on a concrete one-particle system at progress 0. -/
theorem morph_update_endpoints_witness :
    trivialOracle.sinpi 0 = 0 ∧ trivialOracle.sinpi 1 = 0
    ∧ c5State.sourcePositions = some [⟨1, 1, 1⟩]
    ∧ c5State.swarmPositions = some [⟨2, 2, 2⟩]
    ∧ c5State.currentPositions ≠ none
    ∧ c5State.modelPositions ≠ []
    ∧ 0 < ([(⟨7, 7, 7⟩ : Vec3)]).length
    ∧ ((c5State.morphProgress = 0 →
        (PS.updateMorphAnimation trivialOracle c5State [⟨7, 7, 7⟩] 3).getD 0 0
          = ([(⟨1, 1, 1⟩ : Vec3)]).getD 0 0)
      ∧ (c5State.morphProgress = 1 →
        (PS.updateMorphAnimation trivialOracle c5State [⟨7, 7, 7⟩] 3).getD 0 0
          = ((c5State.modelPositions.getD
              (if c5State.isMorphing then c5State.nextModelIndex
               else c5State.currentModelIndex) []).getD 0 0))) :=
  ⟨rfl, rfl, rfl, rfl, by decide, by decide, by decide,
    morph_update_endpoints trivialOracle c5State [⟨7, 7, 7⟩] 3 0
      [⟨1, 1, 1⟩] [⟨2, 2, 2⟩] rfl rfl rfl rfl
      (by decide) (by decide) (by decide)⟩

/-- C8: both per-frame updates preserve the length of the live position
buffer: each rewrites every particle slot and neither can change the
buffer length, whether the engine is idle or mid-morph. -/
theorem update_preserves_buffer_length (o : Oracle) (s : PS.State)
    (srcOpt : Option (List Vec3)) (positions : List Vec3) (e : ℚ) :
    (PS.updateMorphAnimation o s positions e).length = positions.length
    ∧ (PMS.updateIdleAnimation o srcOpt positions e).length = positions.length := by
  constructor
  · unfold PS.updateMorphAnimation
    split
    · rfl
    · simp
  · unfold PMS.updateIdleAnimation
    split
    · rfl
    · simp

namespace PMS

/-- The morph-relevant state of the `ParticleMorphSystem` component: the
React state cells, the position buffer refs, and the `nextShapeIndex` /
`startTime` values captured by the animate closure of the most recent
trigger. -/
structure State where
  currentShapeIndex : ℕ
  morphProgress : ℚ
  isMorphing : Bool
  currentPositions : Option (List Vec3)
  sourcePositions : Option (List Vec3)
  targetPositions : List (List Vec3)
  swarmPositions : Option (List Vec3)
  nextShapeIndex : ℕ
  startTime : ℚ
deriving DecidableEq, Repr

/-- Embedding of `triggerMorph` of `ParticleMorphSystem.tsx` (lines
167-249, up to scheduling the animate loop): guarded no-op when already
morphing or the current/source buffers are unset; otherwise mark morphing,
pick the next shape cyclically over `SHAPES`, recompute the swarm buffer
(only when the swarm ref is set, as in the source) and record the
wall-clock start time. -/
def triggerMorph (s : State) (o : Oracle) (now : ℚ) : State :=
  if s.isMorphing = true ∨ s.currentPositions = none ∨ s.sourcePositions = none then s
  else
    let next := (s.currentShapeIndex + 1) % SHAPES.length
    let tgt := s.targetPositions.getD next []
    let swarm :=
      match s.swarmPositions with
      | some _ => some (computeSwarm o (CONFIG_shapeSize * CONFIG_swarmDistanceFactor)
          (s.sourcePositions.getD []) tgt)
      | none => none
    { s with isMorphing := true, swarmPositions := swarm,
             nextShapeIndex := next, startTime := now }

/-- Embedding of one call of the `animate` closure of `triggerMorph`
(`ParticleMorphSystem.tsx` lines 214-249).  While the raw progress is
below 1 the frame stores the eased progress; at 1 the morph completes:
the shape index advances to the captured next index, the target buffer is
copied into the current and source buffers (when all three are present),
progress is reset to 0, `isMorphing` clears and the notification carries
the new shape name. -/
def morphFrame (s : State) (now : ℚ) : State × Option String :=
  let elapsed := now - s.startTime
  let progress := rawProgress elapsed CONFIG_morphDuration
  let ease := easeProgress progress
  if progress < 1 then
    ({ s with morphProgress := ease }, none)
  else
    let next := s.nextShapeIndex
    let s1 := { s with currentShapeIndex := next }
    let s2 :=
      match s1.currentPositions, s1.sourcePositions, s1.targetPositions.get? next with
      | some cur, some src, some tgt =>
          { s1 with currentPositions := some (setBuffer cur tgt),
                    sourcePositions := some (setBuffer src tgt) }
      | _, _, _ => s1
    ({ s2 with morphProgress := 0, isMorphing := false }, SHAPES.get? next)

end PMS

/-- Running the guard-free path of `PMS.triggerMorph` marks the engine
morphing, records the start time and captures the cyclically-advanced next
shape index. -/
theorem PMS_triggerMorph_run (s : PMS.State) (o : Oracle) (now : ℚ)
    (hIdle : s.isMorphing = false) (cur src : List Vec3)
    (hcur : s.currentPositions = some cur) (hsrc : s.sourcePositions = some src) :
    PMS.triggerMorph s o now
      = { s with
          isMorphing := true,
          swarmPositions :=
            (match s.swarmPositions with
            | some _ => some (computeSwarm o
                (PMS.CONFIG_shapeSize * PMS.CONFIG_swarmDistanceFactor)
                (s.sourcePositions.getD [])
                (s.targetPositions.getD
                  ((s.currentShapeIndex + 1) % PMS.SHAPES.length) []))
            | none => none),
          nextShapeIndex := (s.currentShapeIndex + 1) % PMS.SHAPES.length,
          startTime := now } := by
  unfold PMS.triggerMorph
  rw [if_neg (by simp [hIdle, hcur, hsrc])]

/-- A frame arriving at or after the morph deadline completes the morph:
index advance, buffer copies, progress reset, notification. -/
theorem PMS_morphFrame_complete (s : PMS.State) (now : ℚ)
    (h : PMS.CONFIG_morphDuration ≤ now - s.startTime)
    (cur src tgt : List Vec3)
    (hcur : s.currentPositions = some cur) (hsrc : s.sourcePositions = some src)
    (htgt : s.targetPositions.get? s.nextShapeIndex = some tgt) :
    PMS.morphFrame s now
      = ({ s with
            currentShapeIndex := s.nextShapeIndex,
            currentPositions := some (setBuffer cur tgt),
            sourcePositions := some (setBuffer src tgt),
            morphProgress := 0, isMorphing := false },
         PMS.SHAPES.get? s.nextShapeIndex) := by
  have hprog : rawProgress (now - s.startTime) PMS.CONFIG_morphDuration = 1 := by
    unfold rawProgress
    rw [min_eq_right]
    rw [le_div_iff₀ (by norm_num [PMS.CONFIG_morphDuration])]
    linarith [h]
  simp only [PMS.morphFrame]
  rw [hprog, if_neg (lt_irrefl (1 : ℚ))]
  simp only [hcur, hsrc, htgt]

/-- C3: when the raw progress of a triggered morph reaches 1 the engine
returns to idle: the shape index advances to the target chosen at trigger
time as `(sourceIndex + 1) mod shapeCount`, the target buffer is copied
into the source and live buffers, progress resets to 0, `isMorphing`
clears, and the shape-changed notification carries the new shape name. -/
theorem morph_completion_advances_and_copies (s : PMS.State) (o : Oracle)
    (t0 t1 : ℚ) (cur src tgt : List Vec3)
    (hIdle : s.isMorphing = false)
    (hcur : s.currentPositions = some cur)
    (hsrc : s.sourcePositions = some src)
    (htgt : s.targetPositions.get? ((s.currentShapeIndex + 1) % PMS.SHAPES.length)
        = some tgt)
    (hlc : tgt.length = cur.length)
    (hls : tgt.length = src.length)
    (hel : PMS.CONFIG_morphDuration ≤ t1 - t0) :
    (PMS.morphFrame (PMS.triggerMorph s o t0) t1).1.currentShapeIndex
        = (s.currentShapeIndex + 1) % PMS.SHAPES.length
    ∧ (PMS.morphFrame (PMS.triggerMorph s o t0) t1).1.currentPositions = some tgt
    ∧ (PMS.morphFrame (PMS.triggerMorph s o t0) t1).1.sourcePositions = some tgt
    ∧ (PMS.morphFrame (PMS.triggerMorph s o t0) t1).1.morphProgress = 0
    ∧ (PMS.morphFrame (PMS.triggerMorph s o t0) t1).1.isMorphing = false
    ∧ (PMS.morphFrame (PMS.triggerMorph s o t0) t1).2
        = PMS.SHAPES.get? ((s.currentShapeIndex + 1) % PMS.SHAPES.length) := by
  have htr := PMS_triggerMorph_run s o t0 hIdle cur src hcur hsrc
  have h1 : (PMS.triggerMorph s o t0).currentPositions = some cur := by
    rw [htr]; exact hcur
  have h2 : (PMS.triggerMorph s o t0).sourcePositions = some src := by
    rw [htr]; exact hsrc
  have h3 : (PMS.triggerMorph s o t0).targetPositions.get?
      (PMS.triggerMorph s o t0).nextShapeIndex = some tgt := by
    rw [htr]; exact htgt
  have h4 : PMS.CONFIG_morphDuration ≤ t1 - (PMS.triggerMorph s o t0).startTime := by
    rw [htr]; exact hel
  have hframe := PMS_morphFrame_complete (PMS.triggerMorph s o t0) t1 h4 cur src tgt h1 h2 h3
  rw [hframe]
  rw [setBuffer_eq cur tgt hlc, setBuffer_eq src tgt hls]
  refine ⟨?_, ?_, ?_, ?_, ?_, ?_⟩ <;> simp only [htr]

/-- A concrete one-particle idle engine state used by the C3 witness. -/
def c3State : PMS.State :=
  ⟨0, 0, false, some [⟨0, 0, 0⟩], some [⟨0, 0, 0⟩],
    [[⟨4, 4, 4⟩], [⟨5, 5, 5⟩]], some [⟨0, 0, 0⟩], 0, 0⟩

/-- Witness for C3: a morph triggered at time 0 and completed at time 4000
lands on shape index 1 with both buffers holding the target cloud. -/
theorem morph_completion_advances_and_copies_witness :
    c3State.isMorphing = false
    ∧ c3State.currentPositions = some [⟨0, 0, 0⟩]
    ∧ c3State.sourcePositions = some [⟨0, 0, 0⟩]
    ∧ c3State.targetPositions.get? ((c3State.currentShapeIndex + 1) % PMS.SHAPES.length)
        = some [⟨5, 5, 5⟩]
    ∧ ([(⟨5, 5, 5⟩ : Vec3)]).length = ([(⟨0, 0, 0⟩ : Vec3)]).length
    ∧ PMS.CONFIG_morphDuration ≤ (4000 : ℚ) - 0
    ∧ ((PMS.morphFrame (PMS.triggerMorph c3State trivialOracle 0) 4000).1.currentShapeIndex
          = (c3State.currentShapeIndex + 1) % PMS.SHAPES.length
      ∧ (PMS.morphFrame (PMS.triggerMorph c3State trivialOracle 0) 4000).1.currentPositions
          = some [⟨5, 5, 5⟩]
      ∧ (PMS.morphFrame (PMS.triggerMorph c3State trivialOracle 0) 4000).1.sourcePositions
          = some [⟨5, 5, 5⟩]
      ∧ (PMS.morphFrame (PMS.triggerMorph c3State trivialOracle 0) 4000).1.morphProgress = 0
      ∧ (PMS.morphFrame (PMS.triggerMorph c3State trivialOracle 0) 4000).1.isMorphing = false
      ∧ (PMS.morphFrame (PMS.triggerMorph c3State trivialOracle 0) 4000).2
          = PMS.SHAPES.get? ((c3State.currentShapeIndex + 1) % PMS.SHAPES.length)) :=
  ⟨rfl, rfl, rfl, by decide, rfl, by norm_num [PMS.CONFIG_morphDuration],
    morph_completion_advances_and_copies c3State trivialOracle 0 4000
      [⟨0, 0, 0⟩] [⟨0, 0, 0⟩] [⟨5, 5, 5⟩] rfl rfl rfl (by decide) rfl rfl
      (by norm_num [PMS.CONFIG_morphDuration])⟩

/-!
## Render uniform bridge

Embedding of the `setInfluences` entry of the `window.particleSystem`
control surface of `ParticleSystem.tsx` (lines 1425-1433).
-/

/-- The shader uniform cells touched by the control surface.  The list
`u_morphTargetInfluences` holds the per-target blend weights. -/
structure ShaderUniforms where
  u_morphTargetInfluences : List ℚ
  uTime : ℚ
  uMorphProgress : ℚ
  uEffectStrength : ℚ
  uNoiseStrength : ℚ
  u_scale : ℚ
  uOpacity : ℚ
  uScatterAmount : ℚ
deriving DecidableEq, Repr

/-- The `animatableRef` record mirrored for the GSAP timeline. -/
structure Animatable where
  rotation : Vec3
  position : Vec3
  influences : List ℚ
deriving DecidableEq, Repr

/-- The component state visible to the control surface: the morph engine
state, the shader material (absent until the material mounts, as
`shaderMaterialRef.current` can be null) and the animatable mirror. -/
structure SystemState where
  engine : PS.State
  shaderMaterial : Option ShaderUniforms
  animatable : Animatable
deriving DecidableEq, Repr

/-- Embedding of `setInfluences(influences)`: when the shader material is
mounted, overwrite the `u_morphTargetInfluences` uniform with the given
weights and mirror them into `animatableRef`; nothing else is touched. -/
def setInfluences (s : SystemState) (influences : List ℚ) : SystemState :=
  match s.shaderMaterial with
  | some u =>
      { s with
        shaderMaterial := some { u with u_morphTargetInfluences := influences },
        animatable := { s.animatable with influences := influences } }
  | none => s

/-- C9: `setInfluences(w)` sets the per-target blend-weight uniform to
exactly `w` (and mirrors it into the animatable record) while leaving
`isMorphing` and every other morph state-machine field, the remaining
uniforms, and the rest of the animatable record unchanged. -/
theorem setInfluences_sets_only_uniform (s : SystemState) (w : List ℚ)
    (u : ShaderUniforms) (hu : s.shaderMaterial = some u) :
    (setInfluences s w).shaderMaterial
        = some { u with u_morphTargetInfluences := w }
    ∧ (setInfluences s w).animatable.influences = w
    ∧ (setInfluences s w).engine = s.engine
    ∧ (setInfluences s w).engine.isMorphing = s.engine.isMorphing
    ∧ (setInfluences s w).engine.morphProgress = s.engine.morphProgress
    ∧ (setInfluences s w).animatable.rotation = s.animatable.rotation
    ∧ (setInfluences s w).animatable.position = s.animatable.position := by
  unfold setInfluences
  rw [hu]
  exact ⟨rfl, rfl, rfl, rfl, rfl, rfl, rfl⟩

/-- A concrete mounted system state used by the C9 witness. -/
def c9State : SystemState :=
  ⟨⟨false, 0, 0, 0, none, none, none, [], none⟩,
   some ⟨[0, 0, 0], 0, 0, 0, 0, 1, 1, 0⟩,
   ⟨⟨0, 0, 0⟩, ⟨0, 0, 0⟩, [0, 0, 0]⟩⟩

/-- Witness for C9 with the weights `[0.5, 0, 0]` of the claim. -/
theorem setInfluences_sets_only_uniform_witness :
    c9State.shaderMaterial = some ⟨[0, 0, 0], 0, 0, 0, 0, 1, 1, 0⟩
    ∧ ((setInfluences c9State [1 / 2, 0, 0]).shaderMaterial
          = some ⟨[1 / 2, 0, 0], 0, 0, 0, 0, 1, 1, 0⟩
      ∧ (setInfluences c9State [1 / 2, 0, 0]).animatable.influences = [1 / 2, 0, 0]
      ∧ (setInfluences c9State [1 / 2, 0, 0]).engine = c9State.engine
      ∧ (setInfluences c9State [1 / 2, 0, 0]).engine.isMorphing
          = c9State.engine.isMorphing
      ∧ (setInfluences c9State [1 / 2, 0, 0]).engine.morphProgress
          = c9State.engine.morphProgress
      ∧ (setInfluences c9State [1 / 2, 0, 0]).animatable.rotation
          = c9State.animatable.rotation
      ∧ (setInfluences c9State [1 / 2, 0, 0]).animatable.position
          = c9State.animatable.position) :=
  ⟨rfl, setInfluences_sets_only_uniform c9State [1 / 2, 0, 0]
    ⟨[0, 0, 0], 0, 0, 0, 0, 1, 1, 0⟩ rfl⟩
